import Mathlib

/-!
Verification of the egg-farm record-keeping system's party-ledger and
transaction-posting core, together with the UI-layer behaviours that are
present in the repository (farm_forms.py, transaction_forms.py,
party_forms.py, dashboard.py).

Monetary amounts and stock quantities are modelled as exact rationals (ℚ);
dates are UTC timestamps modelled as ℕ.
-/

namespace EggFarm

/-- An external counterpart (customer, supplier, creditor); see the Party
data model and modules.parties.PartyManager as used by party_forms.py. -/
structure Party where
  id : Nat
  name : String
  phone : String
  deriving Repr, DecidableEq

/-- The two fixed currencies of the ledger. -/
inductive Currency where
  | AFG
  | USD
  deriving Repr, DecidableEq

/-- The kind of originating transaction a ledger entry or stock movement
references. -/
inductive RefKind where
  | sale
  | purchase
  | expense
  | payment
  | adjustment
  deriving Repr, DecidableEq

/-- A reference to the originating transaction: kind plus its id. -/
structure Reference where
  kind : RefKind
  ref_id : Nat
  deriving Repr, DecidableEq

/-- An immutable ledger entry; see the LedgerEntry data model. -/
structure LedgerEntry where
  id : Nat
  party_id : Nat
  posting_date : Nat
  debit_afg : ℚ
  credit_afg : ℚ
  debit_usd : ℚ
  credit_usd : ℚ
  reference_kind : RefKind
  reference_id : Nat
  deriving Repr, DecidableEq

/-- The debit amount of an entry in a given currency. -/
def LedgerEntry.debit (e : LedgerEntry) : Currency → ℚ
  | Currency.AFG => e.debit_afg
  | Currency.USD => e.debit_usd

/-- The credit amount of an entry in a given currency. -/
def LedgerEntry.credit (e : LedgerEntry) : Currency → ℚ
  | Currency.AFG => e.credit_afg
  | Currency.USD => e.credit_usd

/-- The state owned by the LedgerStore: parties, the append-only entry
list, and the next fresh entry id. -/
structure LedgerState where
  parties : List Party
  entries : List LedgerEntry
  next_entry_id : Nat
  deriving Repr, DecidableEq

/-- The four signed amounts a caller passes to post_entry. -/
structure CurrencyMovements where
  debit_afg : ℚ
  credit_afg : ℚ
  debit_usd : ℚ
  credit_usd : ℚ
  deriving Repr, DecidableEq

/-- The error taxonomy of the core (spec section 4.3 / 7). -/
inductive CoreError where
  | InvalidMovement
  | InsufficientStock
  | UnknownParty
  | UnknownItem
  | PartyHasEntries
  deriving Repr, DecidableEq

/-- Modelled from the spec: LedgerEngine.post_entry (modules/ledger.py is
not in the repository snapshot; only its callers in party_forms.py and
transaction_forms.py are).  Fails with InvalidMovement if both debit and
credit are non-zero in the same currency, if all four movements are zero,
or if the party does not exist; on success the entry is appended. -/
def post_entry (st : LedgerState) (party_id : Nat) (date : Nat)
    (mov : CurrencyMovements) (ref : Reference) :
    Except CoreError (LedgerState × LedgerEntry) :=
  if mov.debit_afg ≠ 0 ∧ mov.credit_afg ≠ 0 then Except.error CoreError.InvalidMovement
  else if mov.debit_usd ≠ 0 ∧ mov.credit_usd ≠ 0 then Except.error CoreError.InvalidMovement
  else if mov.debit_afg = 0 ∧ mov.credit_afg = 0 ∧ mov.debit_usd = 0 ∧ mov.credit_usd = 0 then
    Except.error CoreError.InvalidMovement
  else if ¬ st.parties.any (fun p => p.id == party_id) then Except.error CoreError.InvalidMovement
  else
    let e : LedgerEntry :=
      { id := st.next_entry_id
        party_id := party_id
        posting_date := date
        debit_afg := mov.debit_afg
        credit_afg := mov.credit_afg
        debit_usd := mov.debit_usd
        credit_usd := mov.credit_usd
        reference_kind := ref.kind
        reference_id := ref.ref_id }
    Except.ok ({ st with entries := st.entries ++ [e], next_entry_id := st.next_entry_id + 1 }, e)

/-- Modelled from the spec: LedgerManager.get_party_balance as called from
party_forms.py line 64 (modules/ledger.py is not in the snapshot).  Replays
the entry list with a running accumulator, adding credit − debit of the
requested currency for each entry of the party posted no later than
as_of. -/
def balance (st : LedgerState) (party_id : Nat) (c : Currency) (as_of : Nat) : ℚ :=
  st.entries.foldl
    (fun acc e =>
      if e.party_id = party_id ∧ e.posting_date ≤ as_of then
        acc + (e.credit c - e.debit c)
      else acc)
    0

/-- The entries of a party with posting date no later than as_of. -/
def entries_as_of (st : LedgerState) (party_id : Nat) (as_of : Nat) : List LedgerEntry :=
  st.entries.filter (fun e => decide (e.party_id = party_id ∧ e.posting_date ≤ as_of))

/-- The entries of a party inside a closed date range. -/
def entries_in_range (st : LedgerState) (party_id : Nat) (lo hi : Nat) : List LedgerEntry :=
  st.entries.filter (fun e => decide (e.party_id = party_id ∧ lo ≤ e.posting_date ∧ e.posting_date ≤ hi))

/-- The per-currency totals of a party statement, shaped after the keys
view_party reads in party_forms.py lines 108 to 117. -/
structure StatementTotals where
  total_debit_afg : ℚ
  total_credit_afg : ℚ
  balance_afg : ℚ
  total_debit_usd : ℚ
  total_credit_usd : ℚ
  balance_usd : ℚ
  entry_count : Nat
  last_entry_date : Option Nat
  deriving Repr, DecidableEq

/-- Modelled from the spec: LedgerEngine.statement / LedgerManager's
get_ledger_summary as called from party_forms.py line 100 (modules/ledger.py
is not in the snapshot).  A pure aggregation over the party's entries in the
date range; it is total and returns zeroed fields when no entry is in
range. -/
def statement (st : LedgerState) (party_id : Nat) (lo hi : Nat) : StatementTotals :=
  let es := entries_in_range st party_id lo hi
  { total_debit_afg := (es.map (fun e => e.debit_afg)).sum
    total_credit_afg := (es.map (fun e => e.credit_afg)).sum
    balance_afg := (es.map (fun e => e.credit_afg)).sum - (es.map (fun e => e.debit_afg)).sum
    total_debit_usd := (es.map (fun e => e.debit_usd)).sum
    total_credit_usd := (es.map (fun e => e.credit_usd)).sum
    balance_usd := (es.map (fun e => e.credit_usd)).sum - (es.map (fun e => e.debit_usd)).sum
    entry_count := es.length
    last_entry_date := (es.map (fun e => e.posting_date)).max? }

/-- Modelled from the spec: PartyManager.delete_party as called from
party_forms.py line 137 (modules/parties.py is not in the snapshot).  The
referential invariant refuses deletion of a party that owns ledger
entries. -/
def delete_party (st : LedgerState) (party_id : Nat) : Except CoreError LedgerState :=
  if st.entries.any (fun e => e.party_id == party_id) then
    Except.error CoreError.PartyHasEntries
  else
    Except.ok { st with parties := st.parties.filter (fun p => p.id != party_id) }

/-- The state a caller observes after delete_party: on refusal the store is
left as it was. -/
def run_delete_party (st : LedgerState) (party_id : Nat) : LedgerState :=
  match delete_party st party_id with
  | Except.ok st2 => st2
  | Except.error _ => st

/-- A trackable material; see the StockItem data model and
modules.inventory.InventoryManager as used by dashboard.py. -/
structure StockItem where
  id : Nat
  name : String
  quantity_on_hand : ℚ
  reorder_threshold : ℚ
  deriving Repr, DecidableEq

/-- An immutable record of a quantity change to a StockItem. -/
structure StockMovement where
  id : Nat
  item_id : Nat
  delta : ℚ
  reference_kind : RefKind
  reference_id : Nat
  timestamp : Nat
  deriving Repr, DecidableEq

/-- The state owned by the InventoryStore: items, the movement history, and
the next fresh movement id. -/
structure InventoryState where
  items : List StockItem
  movements : List StockMovement
  next_movement_id : Nat
  deriving Repr, DecidableEq

/-- Looks a stock item up by id. -/
def find_item (st : InventoryState) (item_id : Nat) : Option StockItem :=
  st.items.find? (fun i => i.id == item_id)

/-- Modelled from the spec: InventoryEngine.apply_movement
(modules/inventory.py is not in the repository snapshot; only its callers in
dashboard.py and transaction_forms.py are).  Fails with UnknownItem when the
item does not exist and with InsufficientStock when a negative delta would
drive quantity_on_hand below zero without the backorder flag; otherwise it
updates quantity_on_hand and appends the movement together. -/
def apply_movement (st : InventoryState) (item_id : Nat) (delta : ℚ)
    (ref : Reference) (backorder : Bool) (ts : Nat) :
    Except CoreError (InventoryState × StockMovement) :=
  match st.items.find? (fun i => i.id == item_id) with
  | none => Except.error CoreError.UnknownItem
  | some item =>
    if delta < 0 ∧ item.quantity_on_hand + delta < 0 ∧ backorder = false then
      Except.error CoreError.InsufficientStock
    else
      let m : StockMovement :=
        { id := st.next_movement_id
          item_id := item_id
          delta := delta
          reference_kind := ref.kind
          reference_id := ref.ref_id
          timestamp := ts }
      Except.ok
        ({ st with
            items := st.items.map (fun i =>
              if i.id == item_id then { i with quantity_on_hand := i.quantity_on_hand + delta } else i)
            movements := st.movements ++ [m]
            next_movement_id := st.next_movement_id + 1 }, m)

/-- The state a caller observes after apply_movement: on rejection the store
is left as it was. -/
def step_movement (st : InventoryState) (item_id : Nat) (delta : ℚ)
    (ref : Reference) (backorder : Bool) (ts : Nat) : InventoryState :=
  match apply_movement st item_id delta ref backorder ts with
  | Except.ok (st2, _) => st2
  | Except.error _ => st

/-- One movement request of a replayed sequence. -/
structure MoveCmd where
  item_id : Nat
  delta : ℚ
  ref : Reference
  ts : Nat
  deriving Repr, DecidableEq

/-- Replays a sequence of apply_movement calls, all without the backorder
flag, keeping the previous state whenever a call is rejected. -/
def run_movements (st : InventoryState) (cmds : List MoveCmd) : InventoryState :=
  cmds.foldl (fun s c => step_movement s c.item_id c.delta c.ref false c.ts) st

/-- Every stock item's quantity_on_hand is non-negative. -/
def nonneg_stock (st : InventoryState) : Prop :=
  ∀ i ∈ st.items, 0 ≤ i.quantity_on_hand

/-- Modelled from the spec: InventoryEngine.low_stock_items /
InventoryManager.get_low_stock_alerts as called from dashboard.py line 122
(modules/inventory.py is not in the snapshot).  Every item at or below its
reorder threshold, most depleted first. -/
def low_stock_items (items : List StockItem) : List StockItem :=
  (items.filter (fun i => decide (i.quantity_on_hand ≤ i.reorder_threshold))).mergeSort
    (fun a b => decide (a.quantity_on_hand - a.reorder_threshold ≤ b.quantity_on_hand - b.reorder_threshold))

/-- The combined state the TransactionCoordinator writes through: the two
stores. -/
structure SystemState where
  ledger : LedgerState
  inventory : InventoryState
  deriving Repr, DecidableEq

/-- A purchase event as entered through PurchaseDialog.save_purchase in
transaction_forms.py lines 277 to 291: party, material, quantity and the
two rates. -/
structure PurchaseEvent where
  party_id : Nat
  item_id : Nat
  quantity : ℚ
  rate_afg : ℚ
  rate_usd : ℚ
  date : Nat
  reference_id : Nat
  backorder : Bool
  deriving Repr, DecidableEq

/-- The ledger movement a purchase produces: it debits the party by
quantity times rate in each currency. -/
def purchase_movements (ev : PurchaseEvent) : CurrencyMovements :=
  { debit_afg := ev.quantity * ev.rate_afg
    credit_afg := 0
    debit_usd := ev.quantity * ev.rate_usd
    credit_usd := 0 }

/-- The reference a purchase's ledger entry and stock movement carry. -/
def purchase_ref (ev : PurchaseEvent) : Reference :=
  { kind := RefKind.purchase, ref_id := ev.reference_id }

/-- Modelled from the spec: TransactionCoordinator.post for a purchase event
(modules/purchases.py, called from transaction_forms.py line 280, is not in
the repository snapshot).  The ledger entry and the stock decrement are
committed inside one transactional boundary: if either sub-step fails the
whole call fails and nothing is written. -/
def post_purchase (st : SystemState) (ev : PurchaseEvent) :
    Except CoreError (SystemState × LedgerEntry × StockMovement) :=
  match post_entry st.ledger ev.party_id ev.date (purchase_movements ev) (purchase_ref ev) with
  | Except.error e => Except.error e
  | Except.ok (ledger2, entry) =>
    match apply_movement st.inventory ev.item_id (-ev.quantity) (purchase_ref ev) ev.backorder ev.date with
    | Except.error e => Except.error e
    | Except.ok (inv2, mov) =>
      Except.ok ({ ledger := ledger2, inventory := inv2 }, entry, mov)

/-- The state a caller observes after post_purchase: on any failure both
stores are left as they were. -/
def run_post_purchase (st : SystemState) (ev : PurchaseEvent) : SystemState :=
  match post_purchase st ev with
  | Except.ok (st2, _, _) => st2
  | Except.error _ => st

/-- A farm record as managed by farm_forms.py. -/
structure Farm where
  id : Nat
  name : String
  location : String
  deriving Repr, DecidableEq

/-- The outcome FarmDialog.save_farm reports to the user. -/
inductive FarmSaveOutcome where
  | validationWarning
  | limitWarning
  | updated
  | created
  deriving Repr, DecidableEq

/-- Embedding of the Python str.strip call save_farm applies to its text
inputs: leading and trailing whitespace characters are removed. -/
def strip (s : String) : String :=
  String.mk (((s.data.dropWhile Char.isWhitespace).reverse.dropWhile Char.isWhitespace).reverse)

/-- Embedding of FarmDialog.save_farm (farm_forms.py lines 155 to 182).
The farms list plays the role of the FarmManager store; self_farm is the
dialog's loaded farm (None when creating); max_farms is the MAX_FARMS value
imported from config on line 14, which the function never consults: the
creation branch compares against the literal 4. -/
def save_farm (max_farms : Nat) (farms : List Farm) (self_farm : Option Farm)
    (name_text location_text : String) (next_id : Nat) : List Farm × FarmSaveOutcome :=
  let name := strip name_text
  let location := strip location_text
  if name = "" then (farms, FarmSaveOutcome.validationWarning)
  else
    match self_farm with
    | some f =>
      (farms.map (fun g => if g.id == f.id then { g with name := name, location := location } else g),
       FarmSaveOutcome.updated)
    | none =>
      if farms.length ≥ 4 then (farms, FarmSaveOutcome.limitWarning)
      else (farms ++ [{ id := next_id, name := name, location := location }], FarmSaveOutcome.created)

/-- The transaction type a TransactionFormWidget row belongs to. -/
inductive TransKind where
  | sale
  | purchase
  | expense
  deriving Repr, DecidableEq

/-- Every store a transaction deletion could conceivably touch: the
transaction lists (by id), the ledger and the inventory. -/
structure TransactionStores where
  sales : List Nat
  purchases : List Nat
  expenses : List Nat
  ledger : LedgerState
  inventory : InventoryState
  deriving Repr, DecidableEq

/-- The message TransactionFormWidget.delete_transaction shows. -/
inductive DeleteTransactionMsg where
  | notImplementedInfo
  deriving Repr, DecidableEq

/-- Embedding of TransactionFormWidget.delete_transaction
(transaction_forms.py lines 156 to 161).  After the confirmation question it
only shows an informational message; no manager is called, so every store is
returned unchanged. -/
def delete_transaction (st : TransactionStores) (tx_id : Nat) (kind : TransKind)
    (confirmed : Bool) : TransactionStores × Option DeleteTransactionMsg :=
  if confirmed then (st, some DeleteTransactionMsg.notImplementedInfo)
  else (st, none)

/-- Model of the IEEE-754 binary floating-point values that the
QDoubleSpinBox money fields of SalesDialog (transaction_forms.py lines 188
to 189) hold and that save_sale (lines 209 to 222) passes to
record_sale: every binary float is a dyadic rational, mantissa over a power
of two. -/
structure PyFloat where
  mantissa : ℤ
  scale : Nat
  deriving Repr, DecidableEq

/-- The exact rational value of a binary floating-point number. -/
def PyFloat.toRat (f : PyFloat) : ℚ :=
  (f.mantissa : ℚ) / ((2 : ℚ) ^ f.scale)

/-- An exact decimal amount with 2 fractional digits, the representation the
spec requires for AFG/USD money: a count of hundredths. -/
def decimal2 (cents : ℤ) : ℚ := (cents : ℚ) / 100

/-- A sample party used in concrete instantiations. -/
def partyP : Party := { id := 1, name := "P", phone := "" }

/-- A ledger store holding party partyP and no entries. -/
def ledgerEmpty : LedgerState := { parties := [partyP], entries := [], next_entry_id := 1 }

/-- A sample sale reference. -/
def refSale : Reference := { kind := RefKind.sale, ref_id := 7 }

/-- A sample committed entry crediting partyP 5000 AFG. -/
def entryE1 : LedgerEntry :=
  { id := 1, party_id := 1, posting_date := 10, debit_afg := 0, credit_afg := 5000,
    debit_usd := 0, credit_usd := 0, reference_kind := RefKind.sale, reference_id := 7 }

/-- A ledger store in which partyP owns one entry. -/
def ledgerWithEntry : LedgerState :=
  { parties := [partyP], entries := [entryE1], next_entry_id := 2 }

/-- A movement that both debits and credits AFG, which post_entry must
reject. -/
def movDoubleAfg : CurrencyMovements :=
  { debit_afg := 5, credit_afg := 7, debit_usd := 0, credit_usd := 0 }

/-- A sample stock item with 30 units on hand. -/
def itemFeed : StockItem :=
  { id := 1, name := "Feed", quantity_on_hand := 30, reorder_threshold := 10 }

/-- An inventory store holding itemFeed and no movements. -/
def invEx : InventoryState := { items := [itemFeed], movements := [], next_movement_id := 1 }

/-- A sample purchase reference. -/
def refPurchase : Reference := { kind := RefKind.purchase, ref_id := 9 }

/-- A replay sequence: issue 25 units, then attempt to issue 10 more (which
must be rejected on a 5-unit remainder), then receive 3. -/
def cmdsEx : List MoveCmd :=
  [ { item_id := 1, delta := -25, ref := refPurchase, ts := 1 },
    { item_id := 1, delta := -10, ref := refPurchase, ts := 2 },
    { item_id := 1, delta := 3, ref := refPurchase, ts := 3 } ]

/-- A combined store pairing ledgerEmpty with invEx. -/
def sysEx : SystemState := { ledger := ledgerEmpty, inventory := invEx }

/-- A purchase of 50 units at 10 AFG needing more stock than the 30 units
itemFeed has on hand, without the backorder flag. -/
def purchaseBig : PurchaseEvent :=
  { party_id := 1, item_id := 1, quantity := 50, rate_afg := 10, rate_usd := 0,
    date := 5, reference_id := 9, backorder := false }

/-- The ledger entry purchaseBig produces on the ledger side: a 500 AFG
debit against partyP. -/
def entryBig : LedgerEntry :=
  { id := 1, party_id := 1, posting_date := 5, debit_afg := 500, credit_afg := 0,
    debit_usd := 0, credit_usd := 0, reference_kind := RefKind.purchase, reference_id := 9 }

/-- The ledger store after posting entryBig to ledgerEmpty. -/
def ledgerAfterBig : LedgerState :=
  { parties := [partyP], entries := [entryBig], next_entry_id := 2 }

/-- Two sample stock items on either side of their thresholds. -/
def itemLow : StockItem :=
  { id := 2, name := "Trays", quantity_on_hand := 2, reorder_threshold := 20 }

/-- A stock item comfortably above its threshold. -/
def itemHigh : StockItem :=
  { id := 3, name := "Crates", quantity_on_hand := 90, reorder_threshold := 10 }

/-- A sample farm list already at the limit of 4. -/
def farmsFour : List Farm :=
  [ { id := 1, name := "A", location := "" },
    { id := 2, name := "B", location := "" },
    { id := 3, name := "C", location := "" },
    { id := 4, name := "D", location := "" } ]

/-- A sample transaction store snapshot. -/
def storesEx : TransactionStores :=
  { sales := [1], purchases := [2], expenses := [3], ledger := ledgerWithEntry, inventory := invEx }

theorem balance_foldl_eq (pid : Nat) (c : Currency) (T : Nat) (l : List LedgerEntry) :
    ∀ acc : ℚ,
      l.foldl
        (fun acc e =>
          if e.party_id = pid ∧ e.posting_date ≤ T then acc + (e.credit c - e.debit c) else acc)
        acc
      = acc
        + (((l.filter (fun e => decide (e.party_id = pid ∧ e.posting_date ≤ T))).map
              (fun e => e.credit c)).sum
          - ((l.filter (fun e => decide (e.party_id = pid ∧ e.posting_date ≤ T))).map
              (fun e => e.debit c)).sum) := by
  induction l with
  | nil => intro acc; simp
  | cons e l ih =>
    intro acc
    by_cases h : e.party_id = pid ∧ e.posting_date ≤ T
    · rw [List.foldl_cons, if_pos h, List.filter_cons, if_pos (by simpa using h)]
      simp only [List.map_cons, List.sum_cons]
      rw [ih]
      ring
    · rw [List.foldl_cons, if_neg h, List.filter_cons, if_neg (by simpa using h)]
      rw [ih]

/-- C1: for every party, currency and timestamp, the replayed running
balance equals the sum of that party's credits minus the sum of its debits
over the entries in that currency posted no later than the timestamp; the
right-hand side reads only the requested currency's fields, so AFG and USD
are aggregated independently and never netted. -/
theorem balance_replay (st : LedgerState) (pid : Nat) (c : Currency) (T : Nat) :
    balance st pid c T =
      ((entries_as_of st pid T).map (fun e => e.credit c)).sum
        - ((entries_as_of st pid T).map (fun e => e.debit c)).sum := by
  unfold balance entries_as_of
  rw [balance_foldl_eq]
  ring

theorem post_entry_error_of (st : LedgerState) (pid date : Nat) (mov : CurrencyMovements)
    (ref : Reference)
    (h : (mov.debit_afg ≠ 0 ∧ mov.credit_afg ≠ 0) ∨ (mov.debit_usd ≠ 0 ∧ mov.credit_usd ≠ 0) ∨
      (mov.debit_afg = 0 ∧ mov.credit_afg = 0 ∧ mov.debit_usd = 0 ∧ mov.credit_usd = 0) ∨
      (∀ p ∈ st.parties, p.id ≠ pid)) :
    post_entry st pid date mov ref = Except.error CoreError.InvalidMovement := by
  unfold post_entry
  split
  · rfl
  · split
    · rfl
    · split
      · rfl
      · split
        · rfl
        · rename_i h1 h2 h3 h4
          exfalso
          rcases h with h | h | h | h
          · exact h1 h
          · exact h2 h
          · exact h3 h
          · apply h4
            intro hany
            rcases List.any_eq_true.mp hany with ⟨p, hp, hpe⟩
            exact h p hp (by simpa using hpe)

theorem post_entry_ok_shape (st : LedgerState) (pid date : Nat) (mov : CurrencyMovements)
    (ref : Reference) (st2 : LedgerState) (e : LedgerEntry)
    (h : post_entry st pid date mov ref = Except.ok (st2, e)) :
    st2.entries = st.entries ++ [e] ∧ st2.parties = st.parties := by
  unfold post_entry at h
  split at h
  · exact absurd h (by simp)
  · split at h
    · exact absurd h (by simp)
    · split at h
      · exact absurd h (by simp)
      · split at h
        · exact absurd h (by simp)
        · simp only [Except.ok.injEq, Prod.mk.injEq] at h
          rcases h with ⟨hst, he⟩
          subst he
          rw [← hst]
          exact ⟨rfl, rfl⟩

/-- C3: post_entry fails with InvalidMovement when both debit and credit of
the same currency are non-zero, when all four movements are zero, or when
the party does not exist; on success the new entry is appended at the end
and every previously committed entry (and the party list) is left exactly
as it was, so committed entries are never mutated. -/
theorem post_entry_spec :
    (∀ (st : LedgerState) (pid date : Nat) (mov : CurrencyMovements) (ref : Reference),
      ((mov.debit_afg ≠ 0 ∧ mov.credit_afg ≠ 0) ∨ (mov.debit_usd ≠ 0 ∧ mov.credit_usd ≠ 0) ∨
        (mov.debit_afg = 0 ∧ mov.credit_afg = 0 ∧ mov.debit_usd = 0 ∧ mov.credit_usd = 0) ∨
        (∀ p ∈ st.parties, p.id ≠ pid)) →
      post_entry st pid date mov ref = Except.error CoreError.InvalidMovement)
    ∧ (∀ (st : LedgerState) (pid date : Nat) (mov : CurrencyMovements) (ref : Reference)
        (st2 : LedgerState) (e : LedgerEntry),
      post_entry st pid date mov ref = Except.ok (st2, e) →
      st2.entries = st.entries ++ [e] ∧ st2.parties = st.parties) :=
  ⟨fun st pid date mov ref h => post_entry_error_of st pid date mov ref h,
   fun st pid date mov ref st2 e h => post_entry_ok_shape st pid date mov ref st2 e h⟩

/-- Witness for C3: posting a movement with non-zero debit_afg and non-zero
credit_afg against a concrete store fails with InvalidMovement, and a valid
post against the same store appends its entry. -/
theorem post_entry_spec_witness :
    post_entry ledgerEmpty 1 0 movDoubleAfg refSale = Except.error CoreError.InvalidMovement :=
  post_entry_spec.1 ledgerEmpty 1 0 movDoubleAfg refSale (Or.inl (by decide))

/-- C7: the statement of a party with no ledger entries in the requested
range is the totalized zero record: all totals and balances 0, entry count
0, last entry date absent; statement is a total function, so no error and
no absent result is ever produced. -/
theorem statement_zero_of_no_entries (st : LedgerState) (pid lo hi : Nat)
    (h : entries_in_range st pid lo hi = []) :
    statement st pid lo hi =
      { total_debit_afg := 0, total_credit_afg := 0, balance_afg := 0,
        total_debit_usd := 0, total_credit_usd := 0, balance_usd := 0,
        entry_count := 0, last_entry_date := none } := by
  unfold statement
  rw [h]
  simp

/-- Witness for C7: a party id with no entries at all yields the zero
statement on a concrete store. -/
theorem statement_zero_witness :
    statement ledgerWithEntry 2 0 100 =
      { total_debit_afg := 0, total_credit_afg := 0, balance_afg := 0,
        total_debit_usd := 0, total_credit_usd := 0, balance_usd := 0,
        entry_count := 0, last_entry_date := none } :=
  statement_zero_of_no_entries ledgerWithEntry 2 0 100 (by decide)

/-- C8: deleting a party that owns at least one ledger entry is refused
with PartyHasEntries, and the store a caller observes afterwards — party
list and entry list alike — is exactly the pre-call store. -/
theorem delete_party_refused (st : LedgerState) (pid : Nat)
    (h : ∃ e ∈ st.entries, e.party_id = pid) :
    delete_party st pid = Except.error CoreError.PartyHasEntries ∧
      run_delete_party st pid = st := by
  have hany : st.entries.any (fun e => e.party_id == pid) = true := by
    rcases h with ⟨e, he, hpe⟩
    exact List.any_eq_true.mpr ⟨e, he, by simpa using hpe⟩
  refine ⟨?_, ?_⟩
  · unfold delete_party
    simp [hany]
  · unfold run_delete_party delete_party
    simp [hany]

/-- Witness for C8: deleting partyP, who owns entryE1, is refused on a
concrete store and leaves it unchanged. -/
theorem delete_party_refused_witness :
    delete_party ledgerWithEntry 1 = Except.error CoreError.PartyHasEntries ∧
      run_delete_party ledgerWithEntry 1 = ledgerWithEntry :=
  delete_party_refused ledgerWithEntry 1 ⟨entryE1, by decide⟩

theorem find_item_map_update (items : List StockItem) (item_id : Nat) (delta : ℚ) :
    (items.map (fun i =>
        if i.id == item_id then { i with quantity_on_hand := i.quantity_on_hand + delta }
        else i)).find? (fun i => i.id == item_id)
      = (items.find? (fun i => i.id == item_id)).map (fun i =>
          if i.id == item_id then { i with quantity_on_hand := i.quantity_on_hand + delta }
          else i) := by
  induction items with
  | nil => rfl
  | cons a l ih =>
    by_cases h : (a.id == item_id) = true
    · have hfa : (((if a.id == item_id then
          { a with quantity_on_hand := a.quantity_on_hand + delta } else a) : StockItem).id
            == item_id) = true := by
        rw [if_pos h]
        exact h
      rw [List.map_cons, @List.find?_cons_of_pos StockItem (fun i : StockItem => i.id == item_id) _ _ hfa,
        @List.find?_cons_of_pos StockItem (fun i : StockItem => i.id == item_id) _ _ h]
      rfl
    · have hfa : (((if a.id == item_id then
          { a with quantity_on_hand := a.quantity_on_hand + delta } else a) : StockItem).id
            == item_id) ≠ true := by
        rw [if_neg h]
        exact h
      rw [List.map_cons, @List.find?_cons_of_neg StockItem (fun i : StockItem => i.id == item_id) _ _ hfa,
        @List.find?_cons_of_neg StockItem (fun i : StockItem => i.id == item_id) _ _ h, ih]

theorem apply_movement_insufficient (st : InventoryState) (item_id : Nat) (delta : ℚ)
    (ref : Reference) (ts : Nat) (it : StockItem)
    (hfind : find_item st item_id = some it)
    (hneg : delta < 0) (hover : it.quantity_on_hand + delta < 0) :
    apply_movement st item_id delta ref false ts = Except.error CoreError.InsufficientStock ∧
      step_movement st item_id delta ref false ts = st := by
  unfold find_item at hfind
  have h1 : apply_movement st item_id delta ref false ts
      = Except.error CoreError.InsufficientStock := by
    unfold apply_movement
    split
    · rename_i hnone
      rw [hnone] at hfind
      exact absurd hfind (by simp)
    · rename_i item hsome
      rw [hsome] at hfind
      have hit : item = it := by injection hfind
      subst hit
      rw [if_pos ⟨hneg, hover, rfl⟩]
  refine ⟨h1, ?_⟩
  unfold step_movement
  rw [h1]

theorem apply_movement_ok_shape (st : InventoryState) (item_id : Nat) (delta : ℚ)
    (ref : Reference) (backorder : Bool) (ts : Nat) (st2 : InventoryState) (m : StockMovement)
    (h : apply_movement st item_id delta ref backorder ts = Except.ok (st2, m)) :
    st2.movements = st.movements ++ [m] ∧
      ∀ it, find_item st item_id = some it →
        find_item st2 item_id = some { it with quantity_on_hand := it.quantity_on_hand + delta } := by
  unfold apply_movement at h
  split at h
  · exact absurd h (by simp)
  · rename_i item hsome
    split at h
    · exact absurd h (by simp)
    · simp only [Except.ok.injEq, Prod.mk.injEq] at h
      rcases h with ⟨hst, hm⟩
      subst hm
      constructor
      · rw [← hst]
      · intro it hit
        rw [← hst]
        unfold find_item at hit ⊢
        have hpit : (it.id == item_id) = true := by
          have h0 := List.find?_some hit
          simpa using h0
        rw [find_item_map_update, hit]
        simp [hpit]
        intro hne
        exact absurd (by simpa using hpit) hne

theorem step_movement_nonneg (st : InventoryState) (item_id : Nat) (delta : ℚ)
    (ref : Reference) (ts : Nat)
    (hids : (st.items.map (fun i => i.id)).Nodup)
    (hnn : nonneg_stock st) :
    nonneg_stock (step_movement st item_id delta ref false ts) ∧
      ((step_movement st item_id delta ref false ts).items.map (fun i => i.id)).Nodup := by
  rcases hap : apply_movement st item_id delta ref false ts with err | ⟨st2, m⟩
  · have hstep : step_movement st item_id delta ref false ts = st := by
      unfold step_movement
      rw [hap]
    rw [hstep]
    exact ⟨hnn, hids⟩
  · have hstep : step_movement st item_id delta ref false ts = st2 := by
      unfold step_movement
      rw [hap]
    rw [hstep]
    unfold apply_movement at hap
    split at hap
    · exact absurd hap (by simp)
    · rename_i item hsome
      split at hap
      · exact absurd hap (by simp)
      · rename_i hnotc
        simp only [Except.ok.injEq, Prod.mk.injEq] at hap
        rcases hap with ⟨hst, _⟩
        rw [← hst]
        have hmemitem : item ∈ st.items := List.mem_of_find?_eq_some hsome
        have hitemid : (item.id == item_id) = true := by
          have h0 := List.find?_some hsome
          simpa using h0
        constructor
        · intro j hj
          rcases List.mem_map.mp hj with ⟨x, hx, hfx⟩
          by_cases hxid : (x.id == item_id) = true
          · rw [if_pos hxid] at hfx
            have hxitem : x = item :=
              List.inj_on_of_nodup_map hids hx hmemitem
                (by show x.id = item.id
                    have h1 : x.id = item_id := by simpa using hxid
                    have h2 : item.id = item_id := by simpa using hitemid
                    rw [h1, h2])
            subst hxitem
            rw [← hfx]
            by_cases hd : delta < 0
            · by_cases hov : x.quantity_on_hand + delta < 0
              · exact absurd ⟨hd, hov, rfl⟩ hnotc
              · exact le_of_not_lt hov
            · exact add_nonneg (hnn x hx) (le_of_not_lt hd)
          · rw [if_neg hxid] at hfx
            rw [← hfx]
            exact hnn x hx
        · have hidmap :
              ((st.items.map (fun i =>
                  if i.id == item_id then
                    { i with quantity_on_hand := i.quantity_on_hand + delta }
                  else i)).map (fun i => i.id))
                = st.items.map (fun i => i.id) := by
            rw [List.map_map]
            congr 1
            funext x
            dsimp [Function.comp]
            split <;> rfl
          rw [hidmap]
          exact hids

theorem run_movements_nonneg (cmds : List MoveCmd) :
    ∀ st : InventoryState, (st.items.map (fun i => i.id)).Nodup → nonneg_stock st →
      nonneg_stock (run_movements st cmds) := by
  induction cmds with
  | nil => intro st _ h; exact h
  | cons c cmds ih =>
    intro st hids hnn
    have h := step_movement_nonneg st c.item_id c.delta c.ref c.ts hids hnn
    have : run_movements st (c :: cmds)
        = run_movements (step_movement st c.item_id c.delta c.ref false c.ts) cmds := by
      unfold run_movements
      rw [List.foldl_cons]
    rw [this]
    exact ih _ h.2 h.1

/-- C4: over any sequence of apply_movement calls without the backorder
flag, starting from a well-formed store (distinct item ids, all quantities
non-negative), every quantity_on_hand stays non-negative; a movement whose
negative delta would overdraw the found item is rejected with
InsufficientStock and the observed store is unchanged; and an accepted
movement updates the item's quantity_on_hand and appends the movement
record together. -/
theorem apply_movement_nonneg_spec :
    (∀ (st : InventoryState) (cmds : List MoveCmd),
        (st.items.map (fun i => i.id)).Nodup → nonneg_stock st →
        nonneg_stock (run_movements st cmds))
    ∧ (∀ (st : InventoryState) (item_id : Nat) (delta : ℚ) (ref : Reference) (ts : Nat)
        (it : StockItem),
        find_item st item_id = some it → delta < 0 → it.quantity_on_hand + delta < 0 →
        apply_movement st item_id delta ref false ts = Except.error CoreError.InsufficientStock ∧
          step_movement st item_id delta ref false ts = st)
    ∧ (∀ (st : InventoryState) (item_id : Nat) (delta : ℚ) (ref : Reference) (ts : Nat)
        (st2 : InventoryState) (m : StockMovement),
        apply_movement st item_id delta ref false ts = Except.ok (st2, m) →
        st2.movements = st.movements ++ [m] ∧
          ∀ it, find_item st item_id = some it →
            find_item st2 item_id
              = some { it with quantity_on_hand := it.quantity_on_hand + delta }) :=
  ⟨fun st cmds hids hnn => run_movements_nonneg cmds st hids hnn,
   fun st item_id delta ref ts it hfind hneg hover =>
     apply_movement_insufficient st item_id delta ref ts it hfind hneg hover,
   fun st item_id delta ref ts st2 m h =>
     apply_movement_ok_shape st item_id delta ref false ts st2 m h⟩

/-- Witness for C4: replaying a concrete command sequence (including one
overdrawing request) keeps the concrete store non-negative, and a single
overdrawing movement is rejected with InsufficientStock. -/
theorem apply_movement_nonneg_witness :
    nonneg_stock (run_movements invEx cmdsEx) ∧
      apply_movement invEx 1 (-50) refPurchase false 0
        = Except.error CoreError.InsufficientStock :=
  ⟨apply_movement_nonneg_spec.1 invEx cmdsEx (by decide)
      (by unfold nonneg_stock; decide),
   (apply_movement_nonneg_spec.2.1 invEx 1 (-50) refPurchase 0 itemFeed
      (by decide) (by decide) (by norm_num [itemFeed])).1⟩

/-- C2: posting a purchase event is atomic.  On any failure the observed
stores equal the pre-call stores, so a fresh reference id still has no
ledger entry and no stock movement afterwards; on success the ledger entry
and the stock movement are appended together; and an event whose ledger
post succeeds but whose stock-availability check fails (non-backorder)
fails as a whole with InsufficientStock. -/
theorem post_purchase_atomic :
    (∀ (st : SystemState) (ev : PurchaseEvent) (err : CoreError),
        post_purchase st ev = Except.error err → run_post_purchase st ev = st)
    ∧ (∀ (st : SystemState) (ev : PurchaseEvent) (err : CoreError),
        (∀ le ∈ st.ledger.entries, le.reference_id ≠ ev.reference_id) →
        (∀ mv ∈ st.inventory.movements, mv.reference_id ≠ ev.reference_id) →
        post_purchase st ev = Except.error err →
        (∀ le ∈ (run_post_purchase st ev).ledger.entries, le.reference_id ≠ ev.reference_id) ∧
          (∀ mv ∈ (run_post_purchase st ev).inventory.movements,
            mv.reference_id ≠ ev.reference_id))
    ∧ (∀ (st : SystemState) (ev : PurchaseEvent) (st2 : SystemState) (en : LedgerEntry)
        (mv : StockMovement),
        post_purchase st ev = Except.ok (st2, en, mv) →
        st2.ledger.entries = st.ledger.entries ++ [en] ∧
          st2.inventory.movements = st.inventory.movements ++ [mv])
    ∧ (∀ (st : SystemState) (ev : PurchaseEvent) (l2 : LedgerState) (en : LedgerEntry)
        (it : StockItem),
        post_entry st.ledger ev.party_id ev.date (purchase_movements ev) (purchase_ref ev)
            = Except.ok (l2, en) →
        find_item st.inventory ev.item_id = some it →
        ev.backorder = false →
        0 < ev.quantity →
        it.quantity_on_hand - ev.quantity < 0 →
        post_purchase st ev = Except.error CoreError.InsufficientStock) := by
  refine ⟨?_, ?_, ?_, ?_⟩
  · intro st ev err h
    unfold run_post_purchase
    rw [h]
  · intro st ev err hle hmv h
    have hrun : run_post_purchase st ev = st := by
      unfold run_post_purchase
      rw [h]
    rw [hrun]
    exact ⟨hle, hmv⟩
  · intro st ev st2 en mv h
    unfold post_purchase at h
    split at h
    · exact absurd h (by simp)
    · rename_i l2 entry hpe
      split at h
      · exact absurd h (by simp)
      · rename_i inv2 mov hasm
        simp only [Except.ok.injEq, Prod.mk.injEq] at h
        rcases h with ⟨hst, hen, hmv2⟩
        subst hen
        subst hmv2
        rw [← hst]
        refine ⟨?_, ?_⟩
        · exact (post_entry_ok_shape st.ledger ev.party_id ev.date (purchase_movements ev)
            (purchase_ref ev) l2 entry hpe).1
        · exact (apply_movement_ok_shape st.inventory ev.item_id (-ev.quantity)
            (purchase_ref ev) ev.backorder ev.date inv2 mov hasm).1
  · intro st ev l2 en it hpe hfind hback hq hover
    have hins : apply_movement st.inventory ev.item_id (-ev.quantity) (purchase_ref ev) false
        ev.date = Except.error CoreError.InsufficientStock :=
      (apply_movement_insufficient st.inventory ev.item_id (-ev.quantity) (purchase_ref ev)
        ev.date it hfind (by linarith) (by linarith)).1
    unfold post_purchase
    rw [hpe, hback, hins]

/-- Witness for C2: the spec scenario — a purchase needing 50 units of a
30-unit item passes the ledger side yet fails as a whole with
InsufficientStock and leaves the concrete combined store unchanged. -/
theorem post_purchase_atomic_witness :
    post_purchase sysEx purchaseBig = Except.error CoreError.InsufficientStock ∧
      run_post_purchase sysEx purchaseBig = sysEx := by
  have h4 := post_purchase_atomic.2.2.2 sysEx purchaseBig ledgerAfterBig entryBig itemFeed
    (by norm_num [post_entry, purchase_movements, purchase_ref, purchaseBig, sysEx,
      ledgerEmpty, partyP, entryBig, ledgerAfterBig])
    (by decide) (by decide)
    (by norm_num [purchaseBig])
    (by norm_num [itemFeed, purchaseBig])
  exact ⟨h4, post_purchase_atomic.1 sysEx purchaseBig CoreError.InsufficientStock h4⟩

/-- C6: low_stock_items returns exactly the items with quantity_on_hand at
or below reorder_threshold — a permutation of that filter, with matching
membership — ordered by ascending quantity_on_hand minus reorder_threshold,
so the most-depleted items come first. -/
theorem low_stock_items_spec (items : List StockItem) :
    (low_stock_items items).Perm
        (items.filter (fun i => decide (i.quantity_on_hand ≤ i.reorder_threshold)))
    ∧ (∀ i, i ∈ low_stock_items items ↔
        i ∈ items ∧ i.quantity_on_hand ≤ i.reorder_threshold)
    ∧ (low_stock_items items).Pairwise
        (fun a b => a.quantity_on_hand - a.reorder_threshold
          ≤ b.quantity_on_hand - b.reorder_threshold) := by
  refine ⟨List.mergeSort_perm _ _, fun i => ?_, ?_⟩
  · unfold low_stock_items
    rw [List.mem_mergeSort, List.mem_filter]
    simp
  · unfold low_stock_items
    have hs := @List.sorted_mergeSort StockItem
      (fun a b => decide (a.quantity_on_hand - a.reorder_threshold
        ≤ b.quantity_on_hand - b.reorder_threshold))
      (fun a b c hab hbc => by
        simp only [decide_eq_true_eq] at hab hbc ⊢
        exact le_trans hab hbc)
      (fun a b => by
        simp only [Bool.or_eq_true, decide_eq_true_eq]
        exact le_total _ _)
      (items.filter (fun i => decide (i.quantity_on_hand ≤ i.reorder_threshold)))
    exact hs.imp (fun h => by simpa using h)

/-- Witness for C6: on a concrete list the depleted item is reported and the
output is sorted by depletion. -/
theorem low_stock_items_witness :
    itemLow ∈ low_stock_items [itemHigh, itemLow] ∧
      (low_stock_items [itemHigh, itemLow]).Pairwise
        (fun a b => a.quantity_on_hand - a.reorder_threshold
          ≤ b.quantity_on_hand - b.reorder_threshold) :=
  ⟨((low_stock_items_spec [itemHigh, itemLow]).2.1 itemLow).mpr ⟨by decide, by decide⟩,
   (low_stock_items_spec [itemHigh, itemLow]).2.2⟩

/-- C9: whenever the farm store already holds 4 or more farms, save_farm in
creation mode (no loaded farm) with a non-empty trimmed name reports the
limit warning and returns the store unchanged — create_farm is never
reached — and this holds for every value of the imported MAX_FARMS
configuration constant, because the branch compares against the literal
4. -/
theorem save_farm_limit (max_farms : Nat) (farms : List Farm)
    (name_text location_text : String) (next_id : Nat)
    (hname : ¬ strip name_text = "") (hlen : 4 ≤ farms.length) :
    save_farm max_farms farms none name_text location_text next_id
      = (farms, FarmSaveOutcome.limitWarning) := by
  unfold save_farm
  rw [if_neg hname]
  rw [if_pos hlen]

/-- Witness for C9: with exactly 4 farms and MAX_FARMS set to 10, creating
a fifth farm is refused with the limit warning and the store is
unchanged. -/
theorem save_farm_limit_witness :
    save_farm 10 farmsFour none ("North") ("") 5 = (farmsFour, FarmSaveOutcome.limitWarning) :=
  save_farm_limit 10 farmsFour ("North") ("") 5 (by decide) (by decide)

/-- C10: delete_transaction returns every store — transaction lists, ledger
and inventory — unchanged for every transaction of every type; after a
confirmed request it only shows the not-implemented informational
message. -/
theorem delete_transaction_noop (st : TransactionStores) (tx_id : Nat) (kind : TransKind)
    (confirmed : Bool) :
    delete_transaction st tx_id kind confirmed
      = (st, if confirmed then some DeleteTransactionMsg.notImplementedInfo else none) := by
  unfold delete_transaction
  split <;> rfl

theorem pyfloat_ne_tenth (f : PyFloat) : f.toRat = decimal2 10 → False := by
  rcases f with ⟨m, k⟩
  intro hf
  unfold PyFloat.toRat decimal2 at hf
  rw [div_eq_div_iff (by positivity) (by norm_num)] at hf
  have hz : (m * 100 : ℤ) = 10 * 2 ^ k := by exact_mod_cast hf
  have h10 : (10:ℤ) * m = 2 ^ k := by linarith
  have h5 : (5:ℤ) ∣ 2 ^ k := ⟨2 * m, by linarith⟩
  have hp : Prime (5:ℤ) := Int.prime_iff_natAbs_prime.mpr (by norm_num)
  have h52 := hp.dvd_of_dvd_pow h5
  norm_num at h52

/-- C5: the monetary amount 0.10 — a valid exact decimal with 2 fractional
digits — is representable by no binary floating-point value, so the money
the QDoubleSpinBox fields of SalesDialog hold and save_sale records as
Python floats cannot be the exact decimal amounts the claim asserts. -/
theorem money_not_float_representable :
    (∃ f : PyFloat, f.toRat = decimal2 10) = False :=
  eq_false (fun hex => match hex with | ⟨f, hf⟩ => pyfloat_ne_tenth f hf)

end EggFarm
